import Mathlib

/-!
Verification of the streaming SSE decoder and request helpers of
`src/google/adk/cli/cli_client.py` (a thin CLI client for an agent server).

The Python code is shallowly embedded: JSON values are an inductive type,
`json.loads` is an executable recursive-descent parser, Python attribute /
subscript / truthiness semantics are explicit functions returning
`Except PyErr`, and the streaming loop threads the accumulated string plus
the list of terminal writes.
-/

namespace CliClient

/-- Errors a straight-line fragment of the Python client can raise.
`attributeError` models calling `.get` on a non-dict, `typeError` models
string concatenation / iteration on unsupported values, `keyError` a failed
dict subscript, `runtimeError` and `clickException` the two explicit raises
in the source, `jsonDecodeError` a failed `response.json()` decode. -/
inductive PyErr where
  | attributeError
  | typeError
  | keyError
  | runtimeError (msg : String)
  | clickException (msg : String)
  | jsonDecodeError
deriving DecidableEq, Repr

/-- The non-finite floats `json.loads` accepts by default via the
constants `NaN`, `Infinity` and `-Infinity`; all three are truthy. -/
inductive NonFinite where
  | nan
  | inf
  | neginf
deriving DecidableEq, Repr

/-- A JSON value as produced by `json.loads`. A finite number is the exact
decimal `mant · 10 ^ exp10`; Python's int/float distinction and float
rounding are not observable by any verified claim. Objects keep the parsed
key order; duplicate keys are resolved last-wins at lookup time, matching
the dict that `json.loads` builds. -/
inductive JsonValue where
  | null
  | bool (b : Bool)
  | num (mant : Int) (exp10 : Int)
  | nonfinite (v : NonFinite)
  | str (s : String)
  | arr (xs : List JsonValue)
  | obj (fields : List (String × JsonValue))

namespace JsonValue

/-- Last binding for a key, matching the last-wins behaviour of building a
Python dict from a JSON object with duplicate keys. -/
def lookupLast : List (String × JsonValue) → String → Option JsonValue
  | [], _ => none
  | (k, v) :: rest, key =>
    match lookupLast rest key with
    | some w => some w
    | none => if k = key then some v else none

/-- Python truthiness of a decoded JSON value. -/
def isTruthy : JsonValue → Bool
  | .null => false
  | .bool b => b
  | .num mant _ => decide (mant ≠ 0)
  | .nonfinite _ => true
  | .str s => decide (s ≠ "")
  | .arr xs => !xs.isEmpty
  | .obj fs => !fs.isEmpty

/-- `v.get(k)`: `None` default on a dict, `AttributeError` on anything else. -/
def pyGet : JsonValue → String → Except PyErr JsonValue
  | .obj fs, k => .ok ((lookupLast fs k).getD .null)
  | _, _ => .error .attributeError

/-- `v.get(k, d)`: lookup with an explicit default on a dict. -/
def pyGetD : JsonValue → String → JsonValue → Except PyErr JsonValue
  | .obj fs, k, d => .ok ((lookupLast fs k).getD d)
  | _, _, _ => .error .attributeError

/-- `v[k]` with a string key: dict subscript (`KeyError` when absent),
`TypeError` on any non-dict value. -/
def pySub : JsonValue → String → Except PyErr JsonValue
  | .obj fs, k =>
    match lookupLast fs k with
    | some v => .ok v
    | none => .error .keyError
  | _, _ => .error .typeError

/-- First-occurrence deduplication of dict keys (reassigned keys keep their
original position in Python dict iteration order). -/
def dedupFirst (seen : List String) : List String → List String
  | [] => []
  | k :: rest =>
    if k ∈ seen then dedupFirst seen rest
    else k :: dedupFirst (k :: seen) rest

/-- `for x in v`: list elements, string characters (as one-char strings),
dict keys in insertion order; `TypeError` for non-iterables. -/
def pyIter : JsonValue → Except PyErr (List JsonValue)
  | .arr xs => .ok xs
  | .str s => .ok (s.data.map fun c => .str (String.singleton c))
  | .obj fs => .ok ((dedupFirst [] (fs.map (·.1))).map .str)
  | _ => .error .typeError

/-- `result += v` for a string `result`: `TypeError` unless `v` is a string. -/
def pyAsStr : JsonValue → Except PyErr String
  | .str s => .ok s
  | _ => .error .typeError

end JsonValue

/-! ### `json.loads`

An executable recursive-descent parser for the JSON grammar accepted by
Python's `json.loads` with default arguments: the four JSON whitespace
characters, string escapes (`\u` without surrogate-pair combination, which
no verified input exercises), no raw control characters inside strings, no
leading zeros in numbers, the non-standard constants `NaN` / `Infinity` /
`-Infinity` accepted by default, and full-input consumption. -/

def isJsonWs (c : Char) : Bool :=
  c = ' ' || c = '\t' || c = '\n' || c = '\r'

def skipWs : List Char → List Char
  | [] => []
  | c :: cs => if isJsonWs c then skipWs cs else c :: cs

def hexVal (c : Char) : Option Nat :=
  if '0' ≤ c ∧ c ≤ '9' then some (c.toNat - '0'.toNat)
  else if 'a' ≤ c ∧ c ≤ 'f' then some (c.toNat - 'a'.toNat + 10)
  else if 'A' ≤ c ∧ c ≤ 'F' then some (c.toNat - 'A'.toNat + 10)
  else none

/-- Single-character string escapes other than `\u`. -/
def escChar (e : Char) : Option Char :=
  if e = '"' then some '"'
  else if e = '\\' then some '\\'
  else if e = '/' then some '/'
  else if e = 'b' then some (Char.ofNat 8)
  else if e = 'f' then some (Char.ofNat 12)
  else if e = 'n' then some '\n'
  else if e = 'r' then some '\r'
  else if e = 't' then some '\t'
  else none

/-- Parse the body of a JSON string after the opening quote, returning the
decoded characters and the input after the closing quote. -/
def parseStringBody (fuel : Nat) (cs : List Char) : Option (List Char × List Char) :=
  match fuel, cs with
  | 0, _ => none
  | _, [] => none
  | f + 1, c :: cs =>
    if c = '"' then some ([], cs)
    else if c = '\\' then
      match cs with
      | [] => none
      | e :: cs2 =>
        if e = 'u' then
          match cs2 with
          | a :: b :: c3 :: d :: cs3 =>
            match hexVal a, hexVal b, hexVal c3, hexVal d with
            | some ha, some hb, some hc, some hd =>
              match parseStringBody f cs3 with
              | some (s, r) =>
                some (Char.ofNat (((ha * 16 + hb) * 16 + hc) * 16 + hd) :: s, r)
              | none => none
            | _, _, _, _ => none
          | _ => none
        else
          match escChar e with
          | some d =>
            match parseStringBody f cs2 with
            | some (s, r) => some (d :: s, r)
            | none => none
          | none => none
    else if c.toNat < 32 then none
    else
      match parseStringBody f cs with
      | some (s, r) => some (c :: s, r)
      | none => none

def digitsToNat (ds : List Char) : Nat :=
  ds.foldl (fun acc c => acc * 10 + (c.toNat - '0'.toNat)) 0

/-- Parse a JSON number (`-?(0|[1-9][0-9]+)?(\.[0-9]+)?([eE][+-]?[0-9]+)?`
with no leading zeros) into an exact decimal mantissa/exponent pair. -/
def parseNumber (cs : List Char) : Option ((Int × Int) × List Char) :=
  let (neg, cs1) :=
    match cs with
    | '-' :: r => (true, r)
    | _ => (false, cs)
  let intDigits := cs1.takeWhile Char.isDigit
  let cs2 := cs1.dropWhile Char.isDigit
  if intDigits.isEmpty then none
  else if intDigits.head? = some '0' ∧ intDigits.length > 1 then none
  else
    let (fracDigits, cs3) :=
      match cs2 with
      | '.' :: r => (r.takeWhile Char.isDigit, r.dropWhile Char.isDigit)
      | _ => ([], cs2)
    if cs2.head? = some '.' ∧ fracDigits.isEmpty then none
    else
      let expParse : Option (Int × List Char) :=
        match cs3 with
        | e :: r =>
          if e = 'e' ∨ e = 'E' then
            let (esign, r2) :=
              match r with
              | '-' :: r3 => ((-1 : Int), r3)
              | '+' :: r3 => ((1 : Int), r3)
              | _ => ((1 : Int), r)
            let expDigits := r2.takeWhile Char.isDigit
            if expDigits.isEmpty then none
            else some (esign * (digitsToNat expDigits : Int), r2.dropWhile Char.isDigit)
          else some (0, cs3)
        | [] => some (0, cs3)
      match expParse with
      | none => none
      | some (e, rest) =>
        let mant : Int := (digitsToNat (intDigits ++ fracDigits) : Int)
        let mant := if neg then -mant else mant
        some ((mant, e - (fracDigits.length : Int)), rest)

/-- Does the input start with the given keyword? Returns the remainder. -/
def parseKeyword (kw : List Char) (cs : List Char) : Option (List Char) :=
  match kw, cs with
  | [], _ => some cs
  | k :: kr, c :: cr => if c = k then parseKeyword kr cr else none
  | _ :: _, [] => none

def lbrace : Char := Char.ofNat 123
def rbrace : Char := Char.ofNat 125

/-- What the recursive-descent core is currently parsing: a single value,
the remaining comma-separated items of an array (yielding `.arr`), or the
remaining `"key": value` pairs of an object (yielding `.obj`). A single
structural recursion on the fuel keeps every call kernel-reducible. -/
inductive ParseMode where
  | value
  | arrayItems
  | objectItems

/-- The recursive-descent core of `json.loads`. -/
def parseCore : Nat → ParseMode → List Char → Option (JsonValue × List Char)
  | 0, _, _ => none
  | f + 1, .value, cs =>
    match skipWs cs with
    | [] => none
    | c :: rest =>
      if c = '"' then
        match parseStringBody (f + 1) rest with
        | some (s, r) => some (.str (String.mk s), r)
        | none => none
      else if c = '[' then
        match skipWs rest with
        | ']' :: r => some (.arr [], r)
        | _ => parseCore f .arrayItems rest
      else if c = lbrace then
        match skipWs rest with
        | c2 :: r => if c2 = rbrace then some (.obj [], r)
                     else parseCore f .objectItems (c2 :: r)
        | [] => none
      else if c = 't' then
        (parseKeyword ['r', 'u', 'e'] rest).map fun r => (.bool true, r)
      else if c = 'f' then
        (parseKeyword ['a', 'l', 's', 'e'] rest).map fun r => (.bool false, r)
      else if c = 'n' then
        (parseKeyword ['u', 'l', 'l'] rest).map fun r => (.null, r)
      else if c = 'N' then
        (parseKeyword ['a', 'N'] rest).map fun r => (.nonfinite .nan, r)
      else if c = 'I' then
        (parseKeyword ['n', 'f', 'i', 'n', 'i', 't', 'y'] rest).map
          fun r => (.nonfinite .inf, r)
      else if c = '-' then
        match parseKeyword ['I', 'n', 'f', 'i', 'n', 'i', 't', 'y'] rest with
        | some r => some (.nonfinite .neginf, r)
        | none =>
          match parseNumber (c :: rest) with
          | some (q, r) => some (.num q.1 q.2, r)
          | none => none
      else if c.isDigit then
        match parseNumber (c :: rest) with
        | some (q, r) => some (.num q.1 q.2, r)
        | none => none
      else none
  | f + 1, .arrayItems, cs =>
    match parseCore f .value cs with
    | none => none
    | some (v, r) =>
      match skipWs r with
      | ',' :: r2 =>
        match parseCore f .arrayItems r2 with
        | some (.arr vs, r3) => some (.arr (v :: vs), r3)
        | _ => none
      | ']' :: r2 => some (.arr [v], r2)
      | _ => none
  | f + 1, .objectItems, cs =>
    match skipWs cs with
    | '"' :: r =>
      match parseStringBody (f + 1) r with
      | none => none
      | some (k, r2) =>
        match skipWs r2 with
        | ':' :: r3 =>
          match parseCore f .value r3 with
          | none => none
          | some (v, r4) =>
            match skipWs r4 with
            | ',' :: r5 =>
              match parseCore f .objectItems r5 with
              | some (.obj fs, r6) => some (.obj ((String.mk k, v) :: fs), r6)
              | _ => none
            | c :: r5 =>
              if c = rbrace then some (.obj [(String.mk k, v)], r5) else none
            | [] => none
        | _ => none
    | _ => none

/-- Parse one JSON value (leading whitespace allowed). -/
def parseValue (fuel : Nat) (cs : List Char) : Option (JsonValue × List Char) :=
  parseCore fuel .value cs

/-- `json.loads`: parse a complete JSON document; `none` models
`json.JSONDecodeError`. -/
def json_loads (s : String) : Option JsonValue :=
  match parseValue (2 * s.length + 2) s.data with
  | some (v, rest) => if (skipWs rest).isEmpty then some v else none
  | none => none

/-! ### The streaming decoder (`ApiClient.run_agent_streaming`)

The loop body is embedded statement by statement. The accumulated `result`
string is threaded explicitly and each `print(part['text'], ...)` call is
recorded in an ordered write log. A raised exception other than the caught
`json.JSONDecodeError` aborts the whole call (`.error`). -/

/-- The characters `str.strip()` removes: exactly the code points for which
Python's `str.isspace()` holds (ASCII whitespace and separators, NEL, NBSP,
and the Unicode space/line/paragraph separators). -/
def isPyWs (c : Char) : Bool :=
  (9 ≤ c.toNat && c.toNat ≤ 13) || (28 ≤ c.toNat && c.toNat ≤ 31) ||
  c.toNat = 32 || c.toNat = 133 || c.toNat = 160 || c.toNat = 5760 ||
  (8192 ≤ c.toNat && c.toNat ≤ 8202) || c.toNat = 8232 || c.toNat = 8233 ||
  c.toNat = 8239 || c.toNat = 8287 || c.toNat = 12288

def pyStrip (s : String) : String :=
  String.mk (((s.data.dropWhile isPyWs).reverse.dropWhile isPyWs).reverse)

/-- `s.startswith(pre)`: Python strings are sequences of code points, so
this is a character-level prefix test. -/
def pyStartsWith (s pre : String) : Bool :=
  pre.data.isPrefixOf s.data

/-- `s[n:]`: drop the first `n` code points. -/
def pyDrop (s : String) (n : Nat) : String :=
  String.mk (s.data.drop n)

/-- The inner `for part in event['content']['parts']` loop: for each part,
`part.get('text')` (AttributeError on non-dicts), truthiness test, then
`result += part['text']` (TypeError on non-strings) and a terminal write. -/
def partsLoop (result : String) : List JsonValue → Except PyErr (String × List String)
  | [] => .ok (result, [])
  | part :: rest =>
    match part.pyGet "text" with
    | .error e => .error e
    | .ok t =>
      if t.isTruthy then
        match part.pySub "text" with
        | .error e => .error e
        | .ok tv =>
          match tv.pyAsStr with
          | .error e => .error e
          | .ok s =>
            match partsLoop (result ++ s) rest with
            | .error e => .error e
            | .ok (r, w) => .ok (r, s :: w)
      else partsLoop result rest

/-- `if event.get('content') and event['content'].get('parts'): for part in
event['content']['parts']: ...` — the body run on one successfully parsed
event. `event['content']` is the same value as `event.get('content')` once
the latter is truthy, so the already-bound value is reused. -/
def processEvent (result : String) (event : JsonValue) : Except PyErr (String × List String) :=
  match event.pyGet "content" with
  | .error e => .error e
  | .ok content =>
    if content.isTruthy then
      match content.pyGet "parts" with
      | .error e => .error e
      | .ok parts0 =>
        if parts0.isTruthy then
          match content.pySub "parts" with
          | .error e => .error e
          | .ok pv =>
            match pv.pyIter with
            | .error e => .error e
            | .ok parts => partsLoop result parts
        else .ok (result, [])
    else .ok (result, [])

/-- One iteration of `async for line in response.content`: strip, check the
`data: ` prefix, drop it, skip empty payloads, `json.loads` with the
`except json.JSONDecodeError: continue` handler, then process the event. -/
def processLine (result : String) (line : String) : Except PyErr (String × List String) :=
  let line_str := pyStrip line
  if pyStartsWith line_str "data: " then
    let event_data := pyDrop line_str 6
    if event_data = "" then .ok (result, [])
    else
      match json_loads event_data with
      | none => .ok (result, [])
      | some event => processEvent result event
  else .ok (result, [])

/-- One iteration of the `async for` loop as a state transformer: the state
is the accumulated result plus the ordered log of terminal writes so far, or
an already-raised error (which skips every remaining line). -/
def streamStep (st : Except PyErr (String × List String)) (line : String) :
    Except PyErr (String × List String) :=
  match st with
  | .error e => .error e
  | .ok (r, w) =>
    match processLine r line with
    | .error e => .error e
    | .ok (r2, w2) => .ok (r2, w ++ w2)

/-- The whole `async for` loop over the response lines, starting from an
accumulated `result`; returns the final accumulator and the write log. -/
def streamLoop (result : String) (lines : List String) :
    Except PyErr (String × List String) :=
  lines.foldl streamStep (.ok (result, []))

/-- The response to the stream-initiating POST: status, body text (read on
error), and the body lines iterated when streaming. -/
structure SseResponse where
  status : Nat
  body : String
  lines : List String

/-- `ApiClient.run_agent_streaming` from the status check onward.
`hasSession` models whether the aiohttp session exists (`self.session.post`
on `None` raises AttributeError). On success the returned pair is
(accumulated result, ordered terminal writes). -/
def run_agent_streaming (hasSession : Bool) (resp : SseResponse) :
    Except PyErr (String × List String) :=
  if !hasSession then .error .attributeError
  else if resp.status ≥ 400 then
    .error (.clickException ("HTTP " ++ toString resp.status ++ ": " ++ resp.body))
  else streamLoop "" resp.lines

/-! ### One-shot transport (`ApiClient._request`) and resource operations -/

/-- An HTTP response as seen by `_request`: status, `content_type`, and the
body; `response.json()` is modelled as `json_loads` of the body text. -/
structure HttpResponse where
  status : Nat
  content_type : String
  body : String

/-- The network is an oracle from (method, url, json body) to a response;
quantifying over it expresses that no request is issued. -/
def Net : Type := String → String → JsonValue → HttpResponse

/-- `ApiClient._request`: session guard (RuntimeError), URL construction,
status check (ClickException with status and body), then content-type
dispatch between parsed JSON and the `{"text": ...}` wrapper. -/
def ApiClient_request (base_url : String) (hasSession : Bool) (net : Net)
    (method endpoint : String) (jsonBody : JsonValue) : Except PyErr JsonValue :=
  if !hasSession then
    .error (.runtimeError "Client not initialized. Use async context manager.")
  else
    let url := base_url ++ endpoint
    let response := net method url jsonBody
    if response.status ≥ 400 then
      .error (.clickException ("HTTP " ++ toString response.status ++ ": " ++ response.body))
    else if response.content_type = "application/json" then
      match json_loads response.body with
      | some v => .ok v
      | none => .error .jsonDecodeError
    else
      .ok (.obj [("text", .str response.body)])

/-- Truthiness of an `Optional[str]` argument (`None` and `""` are falsy). -/
def optStrTruthy : Option String → Bool
  | none => false
  | some s => decide (s ≠ "")

/-- Truthiness of an `Optional[Dict]` argument (`None` and `{}` are falsy). -/
def optDictTruthy : Option (List (String × JsonValue)) → Bool
  | none => false
  | some fs => !fs.isEmpty

/-- The endpoint and JSON body built by `ApiClient.create_session`:
`if session_id:` selects the path, `json_data = {"state": state} if state
else {}` builds the body. -/
def create_session_request (app_name user_id : String) (session_id : Option String)
    (state : Option (List (String × JsonValue))) : String × JsonValue :=
  let endpoint :=
    if optStrTruthy session_id then
      "/apps/" ++ app_name ++ "/users/" ++ user_id ++ "/sessions/" ++ session_id.getD ""
    else
      "/apps/" ++ app_name ++ "/users/" ++ user_id ++ "/sessions"
  let json_data :=
    if optDictTruthy state then JsonValue.obj [("state", .obj (state.getD []))]
    else JsonValue.obj []
  (endpoint, json_data)

/-- `ApiClient.list_apps`. -/
def list_apps (base_url : String) (hasSession : Bool) (net : Net) :
    Except PyErr JsonValue :=
  ApiClient_request base_url hasSession net "GET" "/list-apps" .null

/-- `ApiClient.create_session`. -/
def create_session (base_url : String) (hasSession : Bool) (net : Net)
    (app_name user_id : String) (session_id : Option String)
    (state : Option (List (String × JsonValue))) : Except PyErr JsonValue :=
  let req := create_session_request app_name user_id session_id state
  ApiClient_request base_url hasSession net "POST" req.1 req.2

/-- `ApiClient.get_session`. -/
def get_session (base_url : String) (hasSession : Bool) (net : Net)
    (app_name user_id session_id : String) : Except PyErr JsonValue :=
  ApiClient_request base_url hasSession net "GET"
    ("/apps/" ++ app_name ++ "/users/" ++ user_id ++ "/sessions/" ++ session_id) .null

/-- `ApiClient.delete_session`. -/
def delete_session (base_url : String) (hasSession : Bool) (net : Net)
    (app_name user_id session_id : String) : Except PyErr JsonValue :=
  ApiClient_request base_url hasSession net "DELETE"
    ("/apps/" ++ app_name ++ "/users/" ++ user_id ++ "/sessions/" ++ session_id) .null

/-! ### Non-streaming rendering (`run_agent` command, event loop) -/

/-- Python `str()` of a decoded JSON value, used by the `f"[{author}]: ..."`
format. Only string authors are exercised by the verified claims; for other
values a repr-style rendering is provided (string quoting/escaping inside
containers is simplified). -/
def pyReprNum (mant exp10 : Int) : String :=
  if exp10 = 0 then toString mant else toString mant ++ "e" ++ toString exp10

mutual

def pyRepr : JsonValue → String
  | .null => "None"
  | .bool true => "True"
  | .bool false => "False"
  | .num m e => pyReprNum m e
  | .nonfinite .nan => "nan"
  | .nonfinite .inf => "inf"
  | .nonfinite .neginf => "-inf"
  | .str s => "\x27" ++ s ++ "\x27"
  | .arr xs => "[" ++ pyReprList xs ++ "]"
  | .obj fs => "\x7b" ++ pyReprFields fs ++ "\x7d"

def pyReprList : List JsonValue → String
  | [] => ""
  | [v] => pyRepr v
  | v :: rest => pyRepr v ++ ", " ++ pyReprList rest

def pyReprFields : List (String × JsonValue) → String
  | [] => ""
  | [(k, v)] => "\x27" ++ k ++ "\x27: " ++ pyRepr v
  | (k, v) :: rest => "\x27" ++ k ++ "\x27: " ++ pyRepr v ++ ", " ++ pyReprFields rest

end

def pyStrOf : JsonValue → String
  | .str s => s
  | v => pyRepr v

/-- The `text_parts` collection loop: `if part.get('text'):
text_parts.append(part['text'])`. -/
def collect_text_parts : List JsonValue → Except PyErr (List JsonValue)
  | [] => .ok []
  | part :: rest =>
    match part.pyGet "text" with
    | .error e => .error e
    | .ok t =>
      if t.isTruthy then
        match part.pySub "text" with
        | .error e => .error e
        | .ok tv =>
          match collect_text_parts rest with
          | .error e => .error e
          | .ok vs => .ok (tv :: vs)
      else collect_text_parts rest

/-- `''.join(text_parts)`: TypeError unless every element is a string. -/
def pyJoin : List JsonValue → Except PyErr String
  | [] => .ok ""
  | v :: rest =>
    match v.pyAsStr with
    | .error e => .error e
    | .ok s =>
      match pyJoin rest with
      | .error e => .error e
      | .ok r => .ok (s ++ r)

/-- The body of `for event in events` in the non-streaming `run_agent`
command: returns the echoed line for this event, if any. -/
def render_event (event : JsonValue) : Except PyErr (Option String) :=
  match event.pyGet "content" with
  | .error e => .error e
  | .ok content =>
    if content.isTruthy then
      match content.pyGet "parts" with
      | .error e => .error e
      | .ok parts0 =>
        if parts0.isTruthy then
          match content.pySub "parts" with
          | .error e => .error e
          | .ok pv =>
            match pv.pyIter with
            | .error e => .error e
            | .ok parts =>
              match collect_text_parts parts with
              | .error e => .error e
              | .ok text_parts =>
                if text_parts.isEmpty then .ok none
                else
                  match event.pyGetD "author" (.str "agent") with
                  | .error e => .error e
                  | .ok author =>
                    match pyJoin text_parts with
                    | .error e => .error e
                    | .ok joined =>
                      .ok (some ("[" ++ pyStrOf author ++ "]: " ++ joined))
        else .ok none
    else .ok none

/-- The full event loop: the ordered list of `[author]: text` lines echoed. -/
def render_events : List JsonValue → Except PyErr (List String)
  | [] => .ok []
  | event :: rest =>
    match render_event event with
    | .error e => .error e
    | .ok none => render_events rest
    | .ok (some line) =>
      match render_events rest with
      | .error e => .error e
      | .ok ls => .ok (line :: ls)

/-- `for event in events` applied to the decoded response value of the
non-streaming run (a JSON array of events). -/
def render_run (v : JsonValue) : Except PyErr (List String) :=
  match v.pyIter with
  | .error e => .error e
  | .ok evs => render_events evs

/-! ### Spec-side definitions

These follow the wording of the specification ("Accumulated Output equals
the ordered concatenation of every `text` value found inside every
successfully-parsed frame's `content.parts`, in stream order") and are
compared with the code embedding above. -/

/-- Ordered concatenation of a list of strings. -/
def strConcat : List String → String
  | [] => ""
  | s :: rest => s ++ strConcat rest

/-- The `text` value found inside one part: the string value of its `text`
field, when the part is an object carrying one. -/
def specPartText : JsonValue → String
  | .obj fs =>
    match JsonValue.lookupLast fs "text" with
    | some (.str s) => s
    | _ => ""
  | _ => ""

/-- The concatenation of every `text` value found inside one parsed event's
`content.parts`. -/
def specEventTexts : JsonValue → String
  | .obj fs =>
    match JsonValue.lookupLast fs "content" with
    | some (.obj cfs) =>
      match JsonValue.lookupLast cfs "parts" with
      | some (.arr ps) => strConcat (ps.map specPartText)
      | _ => ""
    | _ => ""
  | _ => ""

/-- The characters one stream line contributes per the spec: nothing unless
the trimmed line is a `data: ` frame with a nonempty payload that parses as
JSON; otherwise the `text` values inside the parsed event's `content.parts`. -/
def specLineText (line : String) : String :=
  let l := pyStrip line
  if pyStartsWith l "data: " then
    if pyDrop l 6 = "" then ""
    else
      match json_loads (pyDrop l 6) with
      | some e => specEventTexts e
      | none => ""
  else ""

/-- The spec's Accumulated Output for a whole input stream. -/
def specConcat (lines : List String) : String :=
  strConcat (lines.map specLineText)

/-- A truthy `content` value that is guaranteed to be skipped: an object
whose `parts` lookup is falsy. -/
def contentHarmless : JsonValue → Bool
  | .obj cfs => !((JsonValue.lookupLast cfs "parts").getD .null).isTruthy
  | _ => false

/-- A parsed event the decoder is guaranteed to skip without effect: an
object whose `content` is falsy, or whose truthy `content` is an object
with a falsy `parts`. -/
def eventHarmless : JsonValue → Bool
  | .obj fs =>
    let content := (JsonValue.lookupLast fs "content").getD .null
    if content.isTruthy then contentHarmless content else true
  | _ => false

/-- Lines the decoder is guaranteed to skip without effect: blank or
non-`data: ` lines, empty payloads, JSON parse failures, and parsed objects
whose `content` is falsy or whose object-shaped `content` has a falsy
`parts`. (A payload parsing to a non-object, or to an object with truthy
non-object `content`, is not harmless.) -/
def harmlessLine (line : String) : Bool :=
  let l := pyStrip line
  if pyStartsWith l "data: " then
    if pyDrop l 6 = "" then true
    else
      match json_loads (pyDrop l 6) with
      | none => true
      | some ev => eventHarmless ev
  else true

/-! ### Lemmas -/

theorem strConcat_append (a b : List String) :
    strConcat (a ++ b) = strConcat a ++ strConcat b := by
  induction a with
  | nil => simp [strConcat]
  | cons s rest ih => simp [strConcat, ih, String.append_assoc]

theorem pyGet_ok_obj {v : JsonValue} {k : String} {t : JsonValue}
    (h : v.pyGet k = .ok t) :
    ∃ fs, v = .obj fs ∧ (JsonValue.lookupLast fs k).getD .null = t := by
  cases v <;> simp [JsonValue.pyGet] at h
  case obj fs => exact ⟨fs, rfl, h⟩

theorem pySub_ok_obj {fs : List (String × JsonValue)} {k : String} {tv : JsonValue}
    (h : JsonValue.pySub (.obj fs) k = .ok tv) :
    JsonValue.lookupLast fs k = some tv := by
  simp only [JsonValue.pySub] at h
  split at h
  next v hlk => simp at h; rw [hlk, h]
  next hlk => cases h

theorem pyAsStr_ok {tv : JsonValue} {s : String} (h : tv.pyAsStr = .ok s) :
    tv = .str s := by
  cases tv <;> simp [JsonValue.pyAsStr] at h
  case str s2 => rw [h]

/-- A part that is not a dict makes the parts loop raise. -/
theorem partsLoop_nonobj (res : String) (v : JsonValue) (rest : List JsonValue)
    (hv : ∀ fs, v ≠ .obj fs) :
    partsLoop res (v :: rest) = .error .attributeError := by
  unfold partsLoop
  cases v with
  | obj fs => exact absurd rfl (hv fs)
  | null => rfl
  | bool b => rfl
  | num q => rfl
  | nonfinite nf => rfl
  | str s => rfl
  | arr xs => rfl

/-- Characterization of a successful `partsLoop` run: the accumulator grows
by exactly the concatenation of the write log, and that log concatenates to
the spec-side text extraction. -/
theorem partsLoop_ok (ps : List JsonValue) :
    ∀ res r w, partsLoop res ps = .ok (r, w) →
      r = res ++ strConcat w ∧ strConcat w = strConcat (ps.map specPartText) := by
  induction ps with
  | nil =>
    intro res r w h
    simp [partsLoop] at h
    obtain ⟨h1, h2⟩ := h
    subst h1; subst h2
    simp [strConcat]
  | cons part rest ih =>
    intro res r w h
    unfold partsLoop at h
    split at h
    next e hget => cases h
    next t hget =>
      obtain ⟨fs, hfs, ht⟩ := pyGet_ok_obj hget
      subst hfs
      split at h
      · rename_i htr
        split at h
        next e hsub => cases h
        next tv hsub =>
          have hlk := pySub_ok_obj hsub
          split at h
          next e hstr => cases h
          next s hstr =>
            have htv := pyAsStr_ok hstr
            split at h
            next e hloop => cases h
            next r2 w2 hloop =>
              simp at h
              obtain ⟨hr, hw⟩ := h
              subst hr; subst hw
              obtain ⟨ih1, ih2⟩ := ih (res ++ s) r2 w2 hloop
              have hsp : specPartText (.obj fs) = s := by
                rw [htv] at hlk
                simp [specPartText, hlk]
              constructor
              · rw [ih1, strConcat, String.append_assoc]
              · rw [List.map, strConcat, hsp, strConcat, ih2]
      · rename_i htr
        obtain ⟨ih1, ih2⟩ := ih res r w h
        have hsp : specPartText (.obj fs) = "" := by
          cases hlk : JsonValue.lookupLast fs "text" with
          | none => simp [specPartText, hlk]
          | some v =>
            rw [hlk] at ht
            simp at ht
            subst ht
            cases v with
            | str s2 =>
              simp [JsonValue.isTruthy] at htr
              simp [specPartText, hlk, htr]
            | null => simp [specPartText, hlk]
            | bool b => simp [specPartText, hlk]
            | num q => simp [specPartText, hlk]
            | nonfinite nf => simp [JsonValue.isTruthy] at htr
            | arr xs => simp [specPartText, hlk]
            | obj fs2 => simp [specPartText, hlk]
        refine ⟨ih1, ?_⟩
        rw [List.map, strConcat, hsp, ih2]
        simp

/-- Characterization of a successful `processEvent` run: the accumulator
grows by exactly the write log, which concatenates to the spec-side text
extraction for this event. -/
theorem processEvent_ok (res : String) (ev : JsonValue) (r : String) (w : List String)
    (h : processEvent res ev = .ok (r, w)) :
    r = res ++ strConcat w ∧ strConcat w = specEventTexts ev := by
  unfold processEvent at h
  split at h
  next er hget => cases h
  next content hget =>
    obtain ⟨fs, hfs, hc⟩ := pyGet_ok_obj hget
    subst hfs
    split at h
    · rename_i hctr
      have hlc : JsonValue.lookupLast fs "content" = some content := by
        cases hlk0 : JsonValue.lookupLast fs "content" with
        | none =>
          rw [hlk0] at hc; simp at hc
          rw [← hc] at hctr; simp [JsonValue.isTruthy] at hctr
        | some v => rw [hlk0] at hc; simp at hc; rw [hc]
      split at h
      next er hpg => cases h
      next parts0 hpg =>
        obtain ⟨cfs, hcfs, hp⟩ := pyGet_ok_obj hpg
        subst hcfs
        split at h
        · rename_i hptr
          have hlp : JsonValue.lookupLast cfs "parts" = some parts0 := by
            cases hlk0 : JsonValue.lookupLast cfs "parts" with
            | none =>
              rw [hlk0] at hp; simp at hp
              rw [← hp] at hptr; simp [JsonValue.isTruthy] at hptr
            | some v => rw [hlk0] at hp; simp at hp; rw [hp]
          split at h
          next er hsub => cases h
          next pv hsub =>
            have hlk := pySub_ok_obj hsub
            have hpv : pv = parts0 := by
              rw [hlk] at hlp; injection hlp
            subst hpv
            split at h
            next er hiter => cases h
            next parts hiter =>
              cases pv with
              | null => cases hiter
              | bool b => cases hiter
              | num q => cases hiter
              | nonfinite nf => cases hiter
              | arr ps =>
                simp [JsonValue.pyIter] at hiter
                subst hiter
                obtain ⟨h1, h2⟩ := partsLoop_ok ps res r w h
                refine ⟨h1, ?_⟩
                rw [h2]
                simp [specEventTexts, hlc, hlk]
              | str s =>
                simp [JsonValue.pyIter] at hiter
                obtain ⟨cl⟩ := s
                cases cl with
                | nil => simp [JsonValue.isTruthy] at hptr
                | cons c cs =>
                  simp at hiter
                  rw [← hiter] at h
                  rw [partsLoop_nonobj res _ _ (fun fs2 h2 => JsonValue.noConfusion h2)] at h
                  cases h
              | obj pfs =>
                simp [JsonValue.pyIter] at hiter
                cases pfs with
                | nil => simp [JsonValue.isTruthy] at hptr
                | cons kv rest =>
                  simp [JsonValue.dedupFirst] at hiter
                  rw [← hiter] at h
                  rw [partsLoop_nonobj res _ _ (fun fs2 h2 => JsonValue.noConfusion h2)] at h
                  cases h
        · rename_i hptr
          simp at h
          obtain ⟨hr, hw⟩ := h
          subst hr; subst hw
          refine ⟨by simp [strConcat], ?_⟩
          simp only [Bool.not_eq_true] at hptr
          cases hlk0 : JsonValue.lookupLast cfs "parts" with
          | none => simp [specEventTexts, hlc, hlk0, strConcat]
          | some v =>
            rw [hlk0] at hp; simp at hp
            subst hp
            cases v with
            | arr ps =>
              cases ps with
              | nil => simp [specEventTexts, hlc, hlk0, strConcat]
              | cons p0 prest => simp [JsonValue.isTruthy] at hptr
            | null => simp [specEventTexts, hlc, hlk0, strConcat]
            | bool b => simp [specEventTexts, hlc, hlk0, strConcat]
            | num q => simp [specEventTexts, hlc, hlk0, strConcat]
            | nonfinite nf => simp [JsonValue.isTruthy] at hptr
            | str s => simp [specEventTexts, hlc, hlk0, strConcat]
            | obj fs2 => simp [specEventTexts, hlc, hlk0, strConcat]
    · rename_i hctr
      simp at h
      obtain ⟨hr, hw⟩ := h
      subst hr; subst hw
      refine ⟨by simp [strConcat], ?_⟩
      simp only [Bool.not_eq_true] at hctr
      cases hlk0 : JsonValue.lookupLast fs "content" with
      | none => simp [specEventTexts, hlk0, strConcat]
      | some v =>
        rw [hlk0] at hc; simp at hc
        subst hc
        cases v with
        | obj cfs =>
          cases cfs with
          | nil => simp [specEventTexts, hlk0, JsonValue.lookupLast, strConcat]
          | cons kv rest => simp [JsonValue.isTruthy] at hctr
        | null => simp [specEventTexts, hlk0, strConcat]
        | bool b => simp [specEventTexts, hlk0, strConcat]
        | num q => simp [specEventTexts, hlk0, strConcat]
        | nonfinite nf => simp [JsonValue.isTruthy] at hctr
        | str s => simp [specEventTexts, hlk0, strConcat]
        | arr xs => simp [specEventTexts, hlk0, strConcat]

/-- Characterization of one successful loop iteration: the accumulator
grows by exactly this line's write log, which concatenates to the spec-side
contribution of the line. -/
theorem processLine_ok (res line : String) (r : String) (w : List String)
    (h : processLine res line = .ok (r, w)) :
    r = res ++ strConcat w ∧ strConcat w = specLineText line := by
  simp only [processLine] at h
  split at h
  · rename_i hpre
    split at h
    · rename_i hempty
      simp at h
      obtain ⟨hr, hw⟩ := h; subst hr; subst hw
      simp [specLineText, hpre, hempty, strConcat]
    · rename_i hempty
      split at h
      next hjson =>
        simp at h
        obtain ⟨hr, hw⟩ := h; subst hr; subst hw
        simp [specLineText, hpre, hempty, hjson, strConcat]
      next ev hjson =>
        obtain ⟨h1, h2⟩ := processEvent_ok res ev r w h
        refine ⟨h1, ?_⟩
        rw [h2]
        simp [specLineText, hpre, hempty, hjson]
  · rename_i hpre
    simp at h
    obtain ⟨hr, hw⟩ := h; subst hr; subst hw
    simp [specLineText, hpre, strConcat]

/-- A raised error propagates through the rest of the fold unchanged. -/
theorem streamStep_error (e : PyErr) (lines : List String) :
    lines.foldl streamStep (.error e) = .error e := by
  induction lines with
  | nil => rfl
  | cons l rest ih => rw [List.foldl_cons]; exact ih

/-- Characterization of a successful fold from an arbitrary start state. -/
theorem streamFold_ok (lines : List String) :
    ∀ res w0 r w, lines.foldl streamStep (.ok (res, w0)) = .ok (r, w) →
      ∃ wd, w = w0 ++ wd ∧ r = res ++ strConcat wd ∧ strConcat wd = specConcat lines := by
  induction lines with
  | nil =>
    intro res w0 r w h
    simp at h
    obtain ⟨hr, hw⟩ := h; subst hr; subst hw
    exact ⟨[], by simp, by simp [strConcat], by simp [specConcat, strConcat]⟩
  | cons l rest ih =>
    intro res w0 r w h
    rw [List.foldl_cons] at h
    cases hpl : processLine res l with
    | error e =>
      rw [show streamStep (.ok (res, w0)) l = .error e by
            simp [streamStep, hpl]] at h
      rw [streamStep_error] at h
      cases h
    | ok p =>
      obtain ⟨r2, w2⟩ := p
      rw [show streamStep (.ok (res, w0)) l = .ok (r2, w0 ++ w2) by
            simp [streamStep, hpl]] at h
      obtain ⟨wd, hw, hr, hsc⟩ := ih r2 (w0 ++ w2) r w h
      obtain ⟨p1, p2⟩ := processLine_ok res l r2 w2 hpl
      refine ⟨w2 ++ wd, ?_, ?_, ?_⟩
      · rw [hw, List.append_assoc]
      · rw [hr, p1, strConcat_append, String.append_assoc]
      · rw [strConcat_append, p2, hsc]
        simp [specConcat, strConcat]

/-- Characterization of a successful whole-stream run. -/
theorem streamLoop_ok (lines : List String) (res r : String) (w : List String)
    (h : streamLoop res lines = .ok (r, w)) :
    r = res ++ strConcat w ∧ strConcat w = specConcat lines := by
  obtain ⟨wd, hw, hr, hsc⟩ := streamFold_ok lines res [] r w h
  simp at hw
  subst hw
  exact ⟨hr, hsc⟩

/-- A harmless line is skipped: no contribution, no write, no error. -/
theorem harmless_processLine (res line : String) (h : harmlessLine line = true) :
    processLine res line = .ok (res, []) := by
  simp only [harmlessLine] at h
  simp only [processLine]
  by_cases hpre : pyStartsWith (pyStrip line) "data: " = true
  · rw [if_pos hpre] at h ⊢
    by_cases hemp : pyDrop (pyStrip line) 6 = ""
    · rw [if_pos hemp]
    · rw [if_neg hemp] at h ⊢
      cases hjson : json_loads (pyDrop (pyStrip line) 6) with
      | none => simp only [hjson]
      | some ev =>
        rw [hjson] at h
        simp only [hjson]
        cases ev with
        | null => simp [eventHarmless] at h
        | bool b => simp [eventHarmless] at h
        | num m e => simp [eventHarmless] at h
        | nonfinite nf => simp [eventHarmless] at h
        | str s => simp [eventHarmless] at h
        | arr xs => simp [eventHarmless] at h
        | obj fs =>
          simp only [eventHarmless] at h
          simp only [processEvent, JsonValue.pyGet]
          by_cases hct : ((JsonValue.lookupLast fs "content").getD .null).isTruthy = true
          · rw [if_pos hct] at h ⊢
            cases hc2 : (JsonValue.lookupLast fs "content").getD .null with
            | obj cfs =>
              rw [hc2] at h
              simp only [contentHarmless, Bool.not_eq_true'] at h
              simp only [JsonValue.pyGet]
              simp [h]
            | null => rw [hc2] at h; simp [contentHarmless] at h
            | bool b => rw [hc2] at h; simp [contentHarmless] at h
            | num m e => rw [hc2] at h; simp [contentHarmless] at h
            | nonfinite nf => rw [hc2] at h; simp [contentHarmless] at h
            | str s => rw [hc2] at h; simp [contentHarmless] at h
            | arr xs => rw [hc2] at h; simp [contentHarmless] at h
          · rw [if_neg hct]
  · rw [if_neg hpre]

/-- A harmless line does not affect the processing of subsequent lines. -/
theorem harmless_streamLoop (res line : String) (rest : List String)
    (h : harmlessLine line = true) :
    streamLoop res (line :: rest) = streamLoop res rest := by
  unfold streamLoop
  rw [List.foldl_cons]
  have hstep : streamStep (.ok (res, [])) line = .ok (res, []) := by
    simp only [streamStep]
    rw [harmless_processLine res line h]
    rfl
  rw [hstep]

/-! ### Claim theorems -/

/-- C1: for every input stream, the streaming decoder (run_agent_streaming,
after a successful status check) returns a string equal to the ordered
concatenation of every text value found inside every successfully-parsed
frame's `content.parts`, in stream order. -/
theorem C1_streaming_returns_spec_concat (resp : SseResponse) (r : String)
    (w : List String) (hst : resp.status < 400)
    (h : run_agent_streaming true resp = .ok (r, w)) :
    r = specConcat resp.lines := by
  simp only [run_agent_streaming, Bool.not_true] at h
  rw [if_neg (by simp)] at h
  rw [if_neg (by omega)] at h
  obtain ⟨h1, h2⟩ := streamLoop_ok resp.lines "" r w h
  rw [h1, h2]
  simp

theorem C1_witness :
    run_agent_streaming true ⟨200, "",
      ["data: \x7b\"content\":\x7b\"parts\":[\x7b\"text\":\"Hel\"\x7d]\x7d\x7d",
       "data: \x7b\"content\":\x7b\"parts\":[\x7b\"text\":\"lo\"\x7d]\x7d\x7d"]⟩ =
      .ok ("Hello", ["Hel", "lo"]) ∧
    "Hello" = specConcat
      ["data: \x7b\"content\":\x7b\"parts\":[\x7b\"text\":\"Hel\"\x7d]\x7d\x7d",
       "data: \x7b\"content\":\x7b\"parts\":[\x7b\"text\":\"lo\"\x7d]\x7d\x7d"] :=
  ⟨rfl,
   C1_streaming_returns_spec_concat
     ⟨200, "",
      ["data: \x7b\"content\":\x7b\"parts\":[\x7b\"text\":\"Hel\"\x7d]\x7d\x7d",
       "data: \x7b\"content\":\x7b\"parts\":[\x7b\"text\":\"lo\"\x7d]\x7d\x7d"]⟩
     "Hello" ["Hel", "lo"] (by decide) rfl⟩

/-- C2 (counterexample): the claim says a `data: ` line whose parsed value
lacks the `content.parts` structure contributes nothing, does not raise and
does not halt later lines; but `data: 0` parses to the integer `0`, on which
`.get` raises an uncaught AttributeError, aborting the stream before the
following well-formed frame is processed. -/
theorem C2_counterexample :
    streamLoop "" ["data: 0",
      "data: \x7b\"content\":\x7b\"parts\":[\x7b\"text\":\"ok\"\x7d]\x7d\x7d"] =
      .error .attributeError := rfl

/-- C2 (amended): a line that is blank, lacks the `data: ` prefix after
trimming, has an empty payload, fails to parse as JSON, or parses to a JSON
object whose `content` is falsy or whose object-shaped `content` has a falsy
`parts`, contributes zero characters, raises nothing, and leaves the
processing of subsequent lines unchanged. -/
theorem C2_harmless_lines_skipped (res line : String) (rest : List String)
    (h : harmlessLine line = true) :
    processLine res line = .ok (res, []) ∧
    streamLoop res (line :: rest) = streamLoop res rest :=
  ⟨harmless_processLine res line h, harmless_streamLoop res line rest h⟩

theorem C2_witness :
    harmlessLine "data: \x7bnot json" = true ∧
    (processLine "" "data: \x7bnot json" = .ok ("", []) ∧
     streamLoop "" ["data: \x7bnot json",
        "data: \x7b\"content\":\x7b\"parts\":[\x7b\"text\":\"ok\"\x7d]\x7d\x7d"] =
      streamLoop "" ["data: \x7b\"content\":\x7b\"parts\":[\x7b\"text\":\"ok\"\x7d]\x7d\x7d"]) :=
  ⟨rfl, C2_harmless_lines_skipped ""
    "data: \x7bnot json"
    ["data: \x7b\"content\":\x7b\"parts\":[\x7b\"text\":\"ok\"\x7d]\x7d\x7d"] rfl⟩

/-- C3: if the stream-initiating request returns a status ≥ 400, the caller
gets a ClickException carrying the status code and the response body text,
and no frame processing occurs: the outcome is independent of the stream
lines. -/
theorem C3_http_error_before_streaming (resp : SseResponse)
    (hst : 400 ≤ resp.status) :
    run_agent_streaming true resp =
      .error (.clickException ("HTTP " ++ toString resp.status ++ ": " ++ resp.body)) ∧
    ∀ lines2, run_agent_streaming true ⟨resp.status, resp.body, lines2⟩ =
      run_agent_streaming true resp := by
  obtain ⟨st, bd, ls⟩ := resp
  have hst2 : 400 ≤ st := hst
  have hmain : ∀ ls2, run_agent_streaming true ⟨st, bd, ls2⟩ =
      .error (.clickException ("HTTP " ++ toString st ++ ": " ++ bd)) := by
    intro ls2
    simp only [run_agent_streaming, Bool.not_true]
    rw [if_neg (by simp)]
    rw [if_pos hst2]
  refine ⟨hmain ls, fun lines2 => ?_⟩
  rw [hmain lines2, hmain ls]

theorem C3_witness :
    400 ≤ (404 : Nat) ∧
    run_agent_streaming true ⟨404, "session not found",
      ["data: \x7b\"content\":\x7b\"parts\":[\x7b\"text\":\"ok\"\x7d]\x7d\x7d"]⟩ =
      .error (.clickException "HTTP 404: session not found") :=
  ⟨by decide,
   (C3_http_error_before_streaming
     ⟨404, "session not found",
      ["data: \x7b\"content\":\x7b\"parts\":[\x7b\"text\":\"ok\"\x7d]\x7d\x7d"]⟩
     (by decide)).1⟩

/-- C4: on the specific two-frame stream the decoder writes "Hel" then "lo"
in that order and returns "Hello". -/
theorem C4_two_frame_hello :
    run_agent_streaming true ⟨200, "",
      ["data: \x7b\"author\":\"agent\",\"content\":\x7b\"parts\":[\x7b\"text\":\"Hel\"\x7d]\x7d\x7d",
       "data: \x7b\"author\":\"agent\",\"content\":\x7b\"parts\":[\x7b\"text\":\"lo\"\x7d]\x7d\x7d"]⟩ =
      .ok ("Hello", ["Hel", "lo"]) := rfl

/-- C5: `_request` maps any status ≥ 400 to a single error kind carrying
the status code and the body text verbatim; otherwise a body with content
type `application/json` is returned parsed, and any other content type is
returned as the `{"text": body}` wrapper. -/
theorem C5_request_dispatch (base : String) (net : Net) (m e : String)
    (b : JsonValue) :
    (400 ≤ (net m (base ++ e) b).status →
      ApiClient_request base true net m e b =
        .error (.clickException ("HTTP " ++ toString (net m (base ++ e) b).status ++
          ": " ++ (net m (base ++ e) b).body))) ∧
    ((net m (base ++ e) b).status < 400 →
      (net m (base ++ e) b).content_type = "application/json" →
      ∀ v, json_loads (net m (base ++ e) b).body = some v →
        ApiClient_request base true net m e b = .ok v) ∧
    ((net m (base ++ e) b).status < 400 →
      (net m (base ++ e) b).content_type ≠ "application/json" →
      ApiClient_request base true net m e b =
        .ok (.obj [("text", .str (net m (base ++ e) b).body)])) := by
  refine ⟨?_, ?_, ?_⟩
  · intro hst
    simp only [ApiClient_request, Bool.not_true]
    rw [if_neg (by simp)]
    rw [if_pos hst]
  · intro hst hct v hv
    simp only [ApiClient_request, Bool.not_true]
    rw [if_neg (by simp), if_neg (by omega), if_pos hct, hv]
  · intro hst hct
    simp only [ApiClient_request, Bool.not_true]
    rw [if_neg (by simp), if_neg (by omega), if_neg hct]

theorem C5_witness :
    ApiClient_request "http://h" true (fun _ _ _ => ⟨404, "text/plain", "nope"⟩)
      "GET" "/x" .null = .error (.clickException "HTTP 404: nope") ∧
    ApiClient_request "http://h" true
      (fun _ _ _ => ⟨200, "application/json", "[1]"⟩) "GET" "/x" .null =
      .ok (.arr [.num 1 0]) ∧
    ApiClient_request "http://h" true (fun _ _ _ => ⟨200, "text/plain", "hello"⟩)
      "GET" "/x" .null = .ok (.obj [("text", .str "hello")]) :=
  ⟨(C5_request_dispatch "http://h" (fun _ _ _ => ⟨404, "text/plain", "nope"⟩)
      "GET" "/x" .null).1 (by decide),
   (C5_request_dispatch "http://h" (fun _ _ _ => ⟨200, "application/json", "[1]"⟩)
      "GET" "/x" .null).2.1 (by decide) rfl (.arr [.num 1 0]) rfl,
   (C5_request_dispatch "http://h" (fun _ _ _ => ⟨200, "text/plain", "hello"⟩)
      "GET" "/x" .null).2.2 (by decide) (by decide)⟩

/-- C6: the sequence of terminal writes equals, in order and with the same
fragment boundaries, the fragments appended to the accumulated output: each
processed line extends the accumulator by exactly the concatenation of its
writes, and a whole run returns exactly the concatenation of the write log. -/
theorem C6_writes_equal_content :
    (∀ res line r w, processLine res line = .ok (r, w) → r = res ++ strConcat w) ∧
    (∀ lines r w, streamLoop "" lines = .ok (r, w) → r = strConcat w) := by
  constructor
  · intro res line r w h
    exact (processLine_ok res line r w h).1
  · intro lines r w h
    have h1 := (streamLoop_ok lines "" r w h).1
    simpa using h1

theorem C6_witness :
    streamLoop ""
      ["data: \x7b\"content\":\x7b\"parts\":[\x7b\"text\":\"ab\"\x7d,\x7b\"text\":\"c\"\x7d]\x7d\x7d"] =
      .ok ("abc", ["ab", "c"]) ∧
    "abc" = strConcat ["ab", "c"] :=
  ⟨rfl,
   C6_writes_equal_content.2
     ["data: \x7b\"content\":\x7b\"parts\":[\x7b\"text\":\"ab\"\x7d,\x7b\"text\":\"c\"\x7d]\x7d\x7d"]
     "abc" ["ab", "c"] rfl⟩

/-- C7: during one streaming call the accumulated buffer is monotone: each
successfully processed line only appends to it, and a whole-stream run only
extends the starting accumulator. -/
theorem C7_accumulator_monotone :
    (∀ res line r w, processLine res line = .ok (r, w) → ∃ t, r = res ++ t) ∧
    (∀ res lines r w, streamLoop res lines = .ok (r, w) → ∃ t, r = res ++ t) := by
  constructor
  · intro res line r w h
    exact ⟨strConcat w, (processLine_ok res line r w h).1⟩
  · intro res lines r w h
    exact ⟨strConcat w, (streamLoop_ok lines res r w h).1⟩

theorem C7_witness :
    processLine "He" "data: \x7b\"content\":\x7b\"parts\":[\x7b\"text\":\"llo\"\x7d]\x7d\x7d" =
      .ok ("Hello", ["llo"]) ∧
    (∃ t, ("Hello" : String) = "He" ++ t) :=
  ⟨rfl,
   C7_accumulator_monotone.1 "He"
     "data: \x7b\"content\":\x7b\"parts\":[\x7b\"text\":\"llo\"\x7d]\x7d\x7d"
     "Hello" ["llo"] rfl⟩

/-- C8: a non-streaming run returning the JSON array
`[{"author":"agent","content":{"parts":[{"text":"hi"}]}}]` renders exactly
one formatted line attributing "hi" to "agent". -/
theorem C8_render_single_line :
    (json_loads
      "[\x7b\"author\":\"agent\",\"content\":\x7b\"parts\":[\x7b\"text\":\"hi\"\x7d]\x7d\x7d]").map
      render_run = some (.ok ["[agent]: hi"]) := rfl

/-- C9: any resource operation called before the connection scope was
entered (no aiohttp session) raises RuntimeError; the result is the same
for every network oracle, i.e. no HTTP request is issued. -/
theorem C9_no_session_runtime_error (base : String) (net : Net)
    (m e : String) (b : JsonValue) (a u sid : String) (osid : Option String)
    (st : Option (List (String × JsonValue))) :
    ApiClient_request base false net m e b =
      .error (.runtimeError "Client not initialized. Use async context manager.") ∧
    list_apps base false net =
      .error (.runtimeError "Client not initialized. Use async context manager.") ∧
    create_session base false net a u osid st =
      .error (.runtimeError "Client not initialized. Use async context manager.") ∧
    get_session base false net a u sid =
      .error (.runtimeError "Client not initialized. Use async context manager.") ∧
    delete_session base false net a u sid =
      .error (.runtimeError "Client not initialized. Use async context manager.") :=
  ⟨rfl, rfl, rfl, rfl, rfl⟩

/-- C10: `create_session` collapses falsy optional arguments: the body is
`{"state": state}` exactly when `state` is truthy (so `None` and `{}` both
send `{}`), and the endpoint carries the `/sessions/{session_id}` segment
exactly when `session_id` is truthy (so `""` is treated as absent). -/
theorem C10_create_session_falsy_collapse (a u : String) :
    (∀ sid, (create_session_request a u sid none).2 = .obj [] ∧
            (create_session_request a u sid (some [])).2 = .obj []) ∧
    (∀ sid st, optDictTruthy st = true →
      (create_session_request a u sid st).2 =
        .obj [("state", .obj (st.getD []))]) ∧
    (∀ st, (create_session_request a u none st).1 =
             (create_session_request a u (some "") st).1 ∧
           (create_session_request a u none st).1 =
             "/apps/" ++ a ++ "/users/" ++ u ++ "/sessions") ∧
    (∀ sid st, sid ≠ "" →
      (create_session_request a u (some sid) st).1 =
        "/apps/" ++ a ++ "/users/" ++ u ++ "/sessions/" ++ sid) := by
  refine ⟨fun sid => ⟨rfl, rfl⟩, fun sid st hst => ?_,
          fun st => ⟨rfl, rfl⟩, fun sid st hsid => ?_⟩
  · simp [create_session_request, hst]
  · simp [create_session_request, optStrTruthy, hsid]

theorem C10_witness :
    (create_session_request "app1" "user1" (some "sid1")
        (some [("k", JsonValue.null)])).2 =
      .obj [("state", .obj [("k", JsonValue.null)])] ∧
    (create_session_request "app1" "user1" (some "sid1") none).1 =
      "/apps/app1/users/user1/sessions/sid1" :=
  ⟨(C10_create_session_falsy_collapse "app1" "user1").2.1 (some "sid1")
     (some [("k", JsonValue.null)]) rfl,
   (C10_create_session_falsy_collapse "app1" "user1").2.2.2 "sid1" none
     (by decide)⟩

end CliClient
